import Mathlib

/-!
Verification of the coffee-scale monitoring daemon (`coffee_scale.py`).

The Python script is a single-threaded poll loop over global state: it reads
one weight sample per tick from a USB scale, debounces changes against a held
current weight, derives serving counts and a pot-lifted flag, posts to an LED
display on a fixed loop-count cadence, and archives rotated log files on a
wall-clock deadline.

The embedding below turns the globals into an explicit `ScaleState` record and
the body of the `while True:` loop into a pure step function `tick` that also
reports, for each iteration, which observable effects fired (change-log line,
telemetry push, LED post, archive move).  Wall-clock times are modelled as
integers; the Python float `_mugFluidCapacity * .1` is modelled exactly as the
rational 266/10 (for the integer inputs involved, `math.floor` on the float and
the rational floor agree).
-/

namespace CoffeeScale

/-- `_weightChangedThreshold = 5` from `coffee_scale.py`. -/
def _weightChangedThreshold : ℤ := 5

/-- `_emptyPotThreshold = 10` from `coffee_scale.py`. -/
def _emptyPotThreshold : ℤ := 10

/-- `_logToHipChatLoopCount = 40` from `coffee_scale.py`. -/
def _logToHipChatLoopCount : ℕ := 40

/-- `_mugAmounts = [1200, 1466, 1732, 1998, 2264, 2530]` from `coffee_scale.py`. -/
def _mugAmounts : List ℤ := [1200, 1466, 1732, 1998, 2264, 2530]

/-- `_mugFluidCapacity = 266` from `coffee_scale.py`. -/
def _mugFluidCapacity : ℤ := 266

/-- `getWeightInGrams`: a successful USB read unpacks four unsigned integers
and returns the fourth; any `OSError` leaves the initial `grams = -1` in
place.  The transport outcome is the `Option` argument. -/
def getWeightInGrams (readResult : Option (ℕ × ℕ × ℕ × ℕ)) : ℤ :=
  match readResult with
  | some usb_binary_read => (usb_binary_read.2.2.2 : ℤ)
  | none => -1

/-- `shouldLogWeight(newReading)`: `abs(_currentWeight - newReading) >
_weightChangedThreshold`, with the global `_currentWeight` made explicit. -/
def shouldLogWeight (currentWeight newReading : ℤ) : Bool :=
  decide (|currentWeight - newReading| > _weightChangedThreshold)

/-- `potIsLifted()`: `_currentWeight <= _emptyPotThreshold`. -/
def potIsLifted (currentWeight : ℤ) : Bool :=
  decide (currentWeight ≤ _emptyPotThreshold)

/-- `shouldPostToLed()`: `_loopCount == _logToHipChatLoopCount`. -/
def shouldPostToLed (loopCount : ℕ) : Bool :=
  loopCount == _logToHipChatLoopCount

/-- The per-mug minimum from `getAvailableMugs`:
`math.floor(mugAmount - (_mugFluidCapacity * .1)) - 10`. -/
def minimumWeightForMug (mugAmount : ℤ) : ℤ :=
  ⌊(mugAmount : ℚ) - (_mugFluidCapacity : ℚ) * (1 / 10)⌋ - 10

/-- The `for mugAmount in _mugAmounts` loop of `getAvailableMugs`, over an
explicit list: count a mug and continue while `_currentWeight` is above the
mug's minimum, `break` at the first mug where `_currentWeight <=
minimumWeightForMug`. -/
def getAvailableMugsList (currentWeight : ℤ) : List ℤ → ℕ
  | [] => 0
  | mugAmount :: rest =>
    if currentWeight ≤ minimumWeightForMug mugAmount then 0
    else getAvailableMugsList currentWeight rest + 1

/-- `getAvailableMugs()` with the global `_currentWeight` made explicit. -/
def getAvailableMugs (currentWeight : ℤ) : ℕ :=
  getAvailableMugsList currentWeight _mugAmounts

/-- Follows the spec's words (§4.2), for comparison with `getAvailableMugs`:
the adjusted minimum `breakpoint - (perServingCapacity * 0.1) - fixedMargin`
as an exact rational, with capacity 266 and margin 10. -/
def specAdjustedMinimum (breakpoint : ℤ) : ℚ :=
  (breakpoint : ℚ) - (_mugFluidCapacity : ℚ) * (1 / 10) - 10

/-- Follows the spec's words (§4.2), for comparison with `getAvailableMugs`:
traverse breakpoints in order, counting while `currentWeight` exceeds the
adjusted minimum, stopping at the first breakpoint where it does not. -/
def specAvailableServings (currentWeight : ℤ) : List ℤ → ℕ
  | [] => 0
  | breakpoint :: rest =>
    if (currentWeight : ℚ) > specAdjustedMinimum breakpoint then
      specAvailableServings currentWeight rest + 1
    else 0

lemma minimumWeightForMug_eq (m : ℤ) : minimumWeightForMug m = m - 37 := by
  unfold minimumWeightForMug _mugFluidCapacity
  have h : ((266 : ℤ) : ℚ) * (1 / 10) = 133 / 5 := by norm_num
  rw [h]
  have h2 : (m : ℚ) - 133 / 5 = -27 + 2 / 5 + (m : ℤ) := by ring
  rw [h2, Int.floor_add_int]
  have h3 : ⌊(-27 + 2 / 5 : ℚ)⌋ = -27 := by
    rw [Int.floor_eq_iff]
    constructor
    · norm_num
    · norm_num
  rw [h3]; ring

/-- The loop's mutable state: the globals `_currentWeight` and `_loopCount`,
plus the local `rotateTime` of `main`. -/
structure ScaleState where
  currentWeight : ℤ
  loopCount : ℕ
  rotateTime : ℤ

/-- One poll iteration's inputs: the sample returned by `getWeightInGrams()`
and the wall-clock time `datetime.utcnow()` observed on this tick. -/
structure TickInput where
  sample : ℤ
  now : ℤ

/-- The observable effects one iteration of the `while True:` loop fires:
`moveLogsToArchive`, the `logger.info` change line, `logToInitialState`, and
`postToLed`. -/
structure TickEvents where
  archived : Bool
  loggedChange : Bool
  pushedTelemetry : Bool
  postedToLed : Bool

/-- The body of the `while True:` loop in `main`, in source order:
increment `_loopCount`; read the sample; if `utcnow() > rotateTime`, archive
and recompute `rotateTime`; if `shouldLogWeight`, emit the log line, overwrite
`_currentWeight` and push to Initial State; if `shouldPostToLed`, reset
`_loopCount` and post to the LED. -/
def tick (rotateMinutes : ℤ) (s : ScaleState) (inp : TickInput) :
    ScaleState × TickEvents :=
  let loopCount1 := s.loopCount + 1
  let doArchive := decide (inp.now > s.rotateTime)
  let rotateTime1 := if inp.now > s.rotateTime then inp.now + rotateMinutes
    else s.rotateTime
  let doLog := shouldLogWeight s.currentWeight inp.sample
  let currentWeight1 := if doLog then inp.sample else s.currentWeight
  let doLed := shouldPostToLed loopCount1
  let loopCount2 := if doLed then 0 else loopCount1
  (⟨currentWeight1, loopCount2, rotateTime1⟩, ⟨doArchive, doLog, doLog, doLed⟩)

/-- The state as `main` enters the loop: `_currentWeight` seeded by the first
`getWeightInGrams()` call, `_loopCount = 0` (module-level initializer),
`rotateTime = datetime.utcnow() + rotateMinutes`. -/
def initState (firstSample now0 rotateMinutes : ℤ) : ScaleState :=
  ⟨firstSample, 0, now0 + rotateMinutes⟩

/-- Fold `tick` over a list of per-iteration inputs. -/
def run (rotateMinutes : ℤ) (s : ScaleState) : List TickInput → ScaleState
  | [] => s
  | inp :: rest => run rotateMinutes (tick rotateMinutes s inp).1 rest

/-- Fold `tick` over a list of per-iteration inputs, collecting each
iteration's events. -/
def runEvents (rotateMinutes : ℤ) (s : ScaleState) :
    List TickInput → List TickEvents
  | [] => []
  | inp :: rest =>
    (tick rotateMinutes s inp).2 ::
      runEvents rotateMinutes (tick rotateMinutes s inp).1 rest

/-- `postToLed`'s `try: requests.post(...) except: pass`: whatever the
outcome of the HTTP post (the argument), the function returns normally. -/
def postToLed (postResult : Except String Unit) : Except String Unit :=
  match postResult with
  | Except.ok _ => Except.ok ()
  | Except.error _ => Except.ok ()

/-- A tick together with the LED dispatch's fallible HTTP call: when the
cadence gate fires, `postToLed` runs with the given HTTP outcome; an
exception it lets escape would abort the iteration. -/
def tickWithLed (rotateMinutes : ℤ) (s : ScaleState) (inp : TickInput)
    (postResult : Except String Unit) :
    Except String (ScaleState × TickEvents) :=
  match (if (tick rotateMinutes s inp).2.postedToLed then postToLed postResult
    else Except.ok ()) with
  | Except.ok _ => Except.ok (tick rotateMinutes s inp)
  | Except.error e => Except.error e

/-- `glob("{tempFilePath}.*")` membership test: the file's path starts with
the temp file path followed by a dot. -/
def matchesRotatedGlob (tempFilePath fileName : String) : Bool :=
  (tempFilePath ++ ".").isPrefixOf fileName

/-- `moveLogsToArchive(tempFilePath, archiveDir)` over an explicit
filesystem: the glob matches among `tempDirFiles` are each moved
(`shutil.move`) out of the temp location and into the archive directory. -/
def moveLogsToArchive (tempFilePath : String)
    (tempDirFiles archiveDirFiles : List String) :
    List String × List String :=
  let logFiles := tempDirFiles.filter (fun f => matchesRotatedGlob tempFilePath f)
  (tempDirFiles.filter (fun f => !matchesRotatedGlob tempFilePath f),
   archiveDirFiles ++ logFiles)

lemma le_minimumWeight_iff (w m : ℤ) :
    w ≤ minimumWeightForMug m ↔ ¬((w : ℚ) > specAdjustedMinimum m) := by
  rw [minimumWeightForMug_eq, not_lt]
  have hfloor : ⌊specAdjustedMinimum m⌋ = m - 37 := by
    unfold specAdjustedMinimum _mugFluidCapacity
    have h2 : (m : ℚ) - ((266 : ℤ) : ℚ) * (1 / 10) - 10 = -37 + 2 / 5 + (m : ℤ) := by
      push_cast; ring
    rw [h2, Int.floor_add_int]
    have h3 : ⌊(-37 + 2 / 5 : ℚ)⌋ = -37 := by
      rw [Int.floor_eq_iff]
      constructor
      · norm_num
      · norm_num
    rw [h3]; ring
  rw [← hfloor, Int.le_floor]

lemma getAvailableMugsList_eq_spec (w : ℤ) (table : List ℤ) :
    getAvailableMugsList w table = specAvailableServings w table := by
  induction table with
  | nil => rfl
  | cons m rest ih =>
    unfold getAvailableMugsList specAvailableServings
    by_cases h : w ≤ minimumWeightForMug m
    · rw [if_pos h, if_neg ((le_minimumWeight_iff w m).mp h)]
    · have h2 : (w : ℚ) > specAdjustedMinimum m := by
        by_contra hc
        exact h ((le_minimumWeight_iff w m).mpr hc)
      rw [if_neg h, if_pos h2, ih]

lemma getAvailableMugsList_below_all (w : ℤ) (table : List ℤ)
    (h : ∀ m ∈ table, ¬((w : ℚ) > specAdjustedMinimum m)) :
    getAvailableMugsList w table = 0 := by
  cases table with
  | nil => rfl
  | cons m rest =>
    unfold getAvailableMugsList
    rw [if_pos ((le_minimumWeight_iff w m).mpr (h m (by simp)))]

lemma getAvailableMugsList_above_all (w : ℤ) (table : List ℤ)
    (h : ∀ m ∈ table, (w : ℚ) > specAdjustedMinimum m) :
    getAvailableMugsList w table = table.length := by
  induction table with
  | nil => rfl
  | cons m rest ih =>
    unfold getAvailableMugsList
    rw [if_neg (fun hc => (le_minimumWeight_iff w m).mp hc (h m (by simp))),
      ih (fun x hx => h x (by simp [hx]))]
    simp

lemma tick_loopCount_lt (rm : ℤ) (s : ScaleState) (inp : TickInput)
    (h : s.loopCount < _logToHipChatLoopCount) :
    (tick rm s inp).1.loopCount < _logToHipChatLoopCount := by
  simp only [tick, shouldPostToLed, _logToHipChatLoopCount] at h ⊢
  split
  · omega
  · next hne =>
    simp only [beq_iff_eq] at hne
    omega

lemma run_loopCount_lt (rm : ℤ) (inputs : List TickInput) (s : ScaleState)
    (h : s.loopCount < _logToHipChatLoopCount) :
    (run rm s inputs).loopCount < _logToHipChatLoopCount := by
  induction inputs generalizing s with
  | nil => exact h
  | cons inp rest ih => exact ih _ (tick_loopCount_lt rm s inp h)

lemma tick_rotateTime_of_le (rm : ℤ) (s : ScaleState) (inp : TickInput)
    (h : inp.now ≤ s.rotateTime) :
    (tick rm s inp).1.rotateTime = s.rotateTime := by
  simp [tick, not_lt.mpr h]

lemma runEvents_no_archive (rm : ℤ) (inputs : List TickInput) (s : ScaleState)
    (h : ∀ j ∈ inputs, j.now ≤ s.rotateTime) :
    ∀ e ∈ runEvents rm s inputs, e.archived = false := by
  induction inputs generalizing s with
  | nil =>
    intro e he
    simp [runEvents] at he
  | cons inp rest ih =>
    intro e he
    have hn : inp.now ≤ s.rotateTime := h inp (by simp)
    rw [runEvents] at he
    rcases List.mem_cons.mp he with h1 | h2
    · rw [h1]
      simp [tick, decide_eq_false_iff_not]
      omega
    · refine ih (tick rm s inp).1 ?_ e h2
      rw [tick_rotateTime_of_le rm s inp hn]
      intro j hj
      exact h j (List.mem_cons_of_mem inp hj)

lemma run_currentWeight_mem (rm : ℤ) (inputs : List TickInput) (s : ScaleState) :
    (run rm s inputs).currentWeight = s.currentWeight ∨
      (run rm s inputs).currentWeight ∈ inputs.map TickInput.sample := by
  induction inputs generalizing s with
  | nil => left; rfl
  | cons inp rest ih =>
    have htick : (tick rm s inp).1.currentWeight = inp.sample ∨
        (tick rm s inp).1.currentWeight = s.currentWeight := by
      cases hc : shouldLogWeight s.currentWeight inp.sample <;> simp [tick, hc]
    rw [run]
    rcases ih (tick rm s inp).1 with h | h
    · rw [h]
      rcases htick with h2 | h2
      · right
        rw [h2]
        simp
      · left
        exact h2
    · right
      rw [List.map_cons]
      exact List.mem_cons_of_mem _ h

/-- C1: the poll loop does not skip the sentinel.  When the sensor read fails
(`getWeightInGrams` returns -1) and the held weight is an ordinary value such
as 2000, the tick passes the `shouldLogWeight` gate, overwrites the held
current weight with -1, emits the change-log line and pushes to the telemetry
sink — contradicting the claim that a sentinel tick leaves all three alone. -/
theorem c1_sentinel_not_skipped :
    getWeightInGrams none = -1 ∧
    (tick 10 ⟨2000, 0, 1000⟩ ⟨getWeightInGrams none, 500⟩).1.currentWeight = -1 ∧
    (tick 10 ⟨2000, 0, 1000⟩ ⟨getWeightInGrams none, 500⟩).2.loggedChange = true ∧
    (tick 10 ⟨2000, 0, 1000⟩ ⟨getWeightInGrams none, 500⟩).2.pushedTelemetry = true := by
  refine ⟨rfl, ?_, ?_, ?_⟩ <;> decide

/-- C2 counterexample: with the configured table, capacity and margin, the
code yields 1 serving at weight 1190 (1190 exceeds the first minimum
floor(1200 - 26.6) - 10 = 1163) and 2 servings at weight 1450, so the claimed
triple (6, 0, 1) is false. -/
theorem c2_servings_claim_false :
    ¬(getAvailableMugs 2530 = 6 ∧ getAvailableMugs 1190 = 0 ∧
      getAvailableMugs 1450 = 1) := by
  simp [getAvailableMugs, getAvailableMugsList, minimumWeightForMug_eq, _mugAmounts]

/-- C2 amended: with breakpoints [1200, 1466, 1732, 1998, 2264, 2530],
capacity 266 and margin 10, weight 2530 gives 6 servings, weight 1190 gives 1
serving, and weight 1450 gives 2 servings. -/
theorem c2_servings_values :
    getAvailableMugs 2530 = 6 ∧ getAvailableMugs 1190 = 1 ∧
      getAvailableMugs 1450 = 2 := by
  refine ⟨?_, ?_, ?_⟩ <;>
    simp [getAvailableMugs, getAvailableMugsList, minimumWeightForMug_eq, _mugAmounts]

/-- C3: for every integer current weight and every ascending breakpoint
table, `getAvailableMugs` equals the count obtained by traversing breakpoints
in order, counting while the weight exceeds the exact adjusted minimum
`breakpoint - capacity * 0.1 - margin` and stopping at the first failure
(`specAvailableServings`); the result is 0 when the weight is below every
adjusted minimum and the table length when it is above all of them. -/
theorem c3_servings_match_spec_model :
    (∀ (w : ℤ) (table : List ℤ), List.Chain' (fun a b => a < b) table →
      getAvailableMugsList w table = specAvailableServings w table) ∧
    (∀ (w : ℤ) (table : List ℤ),
      (∀ m ∈ table, ¬((w : ℚ) > specAdjustedMinimum m)) →
      getAvailableMugsList w table = 0) ∧
    (∀ (w : ℤ) (table : List ℤ),
      (∀ m ∈ table, (w : ℚ) > specAdjustedMinimum m) →
      getAvailableMugsList w table = table.length) :=
  ⟨fun w table _ => getAvailableMugsList_eq_spec w table,
   fun w table h => getAvailableMugsList_below_all w table h,
   fun w table h => getAvailableMugsList_above_all w table h⟩

/-- C3 witness: the refinement and both edge cases at concrete inputs over
the first two configured breakpoints. -/
theorem c3_servings_match_spec_model_witness :
    getAvailableMugsList 1450 [1200, 1466] = specAvailableServings 1450 [1200, 1466] ∧
    getAvailableMugsList 1000 [1200, 1466] = 0 ∧
    getAvailableMugsList 5000 [1200, 1466] = 2 := by
  refine ⟨c3_servings_match_spec_model.1 1450 [1200, 1466] (by simp [List.chain'_cons]),
    c3_servings_match_spec_model.2.1 1000 [1200, 1466] ?_,
    c3_servings_match_spec_model.2.2 5000 [1200, 1466] ?_⟩
  · intro m hm
    fin_cases hm <;> norm_num [specAdjustedMinimum, _mugFluidCapacity]
  · intro m hm
    fin_cases hm <;> norm_num [specAdjustedMinimum, _mugFluidCapacity]

/-- C4: within the loop, a tick overwrites the held current weight exactly
when the new sample differs from it by strictly more than the change
threshold (and then with the sample itself); the initial seeding stores the
first sensor sample unconditionally. -/
theorem c4_debounce_guard :
    (∀ (rotateMinutes : ℤ) (s : ScaleState) (inp : TickInput),
      (tick rotateMinutes s inp).1.currentWeight =
        if |s.currentWeight - inp.sample| > _weightChangedThreshold then inp.sample
        else s.currentWeight) ∧
    (∀ firstSample now0 rotateMinutes : ℤ,
      (initState firstSample now0 rotateMinutes).currentWeight = firstSample) := by
  constructor
  · intro rm s inp
    simp [tick, shouldLogWeight]
  · intro a b c
    rfl

/-- C5: each tick increments the loop counter once and resets it to zero
exactly when the incremented counter reaches the cadence 40; the LED dispatch
fires precisely on that condition, which depends only on the counter (not on
the sample); and from the initial state every reachable start-of-iteration
counter is below 40. -/
theorem c5_cadence_counter :
    (∀ (rotateMinutes : ℤ) (s : ScaleState) (inp : TickInput),
      (tick rotateMinutes s inp).1.loopCount =
        if s.loopCount + 1 = _logToHipChatLoopCount then 0 else s.loopCount + 1) ∧
    (∀ (rotateMinutes : ℤ) (s : ScaleState) (inp : TickInput),
      ((tick rotateMinutes s inp).2.postedToLed = true ↔
        s.loopCount + 1 = _logToHipChatLoopCount)) ∧
    (∀ (firstSample now0 rotateMinutes : ℤ) (inputs : List TickInput),
      (run rotateMinutes (initState firstSample now0 rotateMinutes) inputs).loopCount
        < _logToHipChatLoopCount) := by
  refine ⟨?_, ?_, ?_⟩
  · intro rm s inp
    by_cases h : s.loopCount + 1 = _logToHipChatLoopCount
    · simp [tick, shouldPostToLed, h]
    · simp [tick, shouldPostToLed, h]
  · intro rm s inp
    simp [tick, shouldPostToLed]
  · intro w0 n0 rm inputs
    exact run_loopCount_lt rm inputs _ (show (0 : ℕ) < _logToHipChatLoopCount by decide)

/-- C6: `shouldLogWeight` is true exactly when the held weight and the new
reading differ in absolute value by strictly more than the threshold 5; a
difference of exactly the threshold yields false. -/
theorem c6_change_predicate :
    (∀ currentWeight w : ℤ,
      shouldLogWeight currentWeight w = true ↔
        |currentWeight - w| > _weightChangedThreshold) ∧
    (∀ currentWeight w : ℤ, |currentWeight - w| = _weightChangedThreshold →
      shouldLogWeight currentWeight w = false) := by
  constructor
  · intro c w
    simp [shouldLogWeight]
  · intro c w h
    simp [shouldLogWeight, h, _weightChangedThreshold]

/-- C6 witness: a difference of 6 triggers the predicate, a difference of
exactly 5 does not. -/
theorem c6_change_predicate_witness :
    shouldLogWeight 0 6 = true ∧ shouldLogWeight 5 0 = false :=
  ⟨(c6_change_predicate.1 0 6).mpr (by decide),
   c6_change_predicate.2 5 0 (by decide)⟩

/-- C7: `potIsLifted` is true exactly when the held current weight is at most
the empty-pot threshold 10; equality with the threshold yields true. -/
theorem c7_vessel_lifted_predicate :
    (∀ currentWeight : ℤ,
      potIsLifted currentWeight = true ↔ currentWeight ≤ _emptyPotThreshold) ∧
    potIsLifted _emptyPotThreshold = true := by
  constructor
  · intro c
    simp [potIsLifted]
  · decide

/-- C8: whatever the outcome of the LED HTTP post, `postToLed`'s blanket
except swallows it: the iteration returns normally with the same state and
events as an untroubled tick, so no dispatch failure escapes the tick
boundary. -/
theorem c8_led_failure_swallowed :
    ∀ (rotateMinutes : ℤ) (s : ScaleState) (inp : TickInput)
      (postResult : Except String Unit),
      tickWithLed rotateMinutes s inp postResult =
        Except.ok (tick rotateMinutes s inp) := by
  intro rm s inp r
  cases r <;> simp [tickWithLed, postToLed]

/-- C9: the first deadline is `now0 + rotateMinutes`; a tick archives exactly
when its time strictly exceeds the held deadline, recomputing the deadline as
`now + rotateMinutes` and leaving it unchanged otherwise; the archive step
removes every glob match from the temp location and appends them all to the
archive directory; and once a tick fires, no later tick whose time is within
`rotateMinutes` of the firing time fires again. -/
theorem c9_maintenance_schedule :
    (∀ firstSample now0 rotateMinutes : ℤ,
      (initState firstSample now0 rotateMinutes).rotateTime = now0 + rotateMinutes) ∧
    (∀ (rotateMinutes : ℤ) (s : ScaleState) (inp : TickInput),
      (tick rotateMinutes s inp).2.archived = decide (inp.now > s.rotateTime)) ∧
    (∀ (rotateMinutes : ℤ) (s : ScaleState) (inp : TickInput),
      (tick rotateMinutes s inp).1.rotateTime =
        if inp.now > s.rotateTime then inp.now + rotateMinutes else s.rotateTime) ∧
    (∀ (tempFilePath : String) (tempDirFiles archiveDirFiles : List String),
      (moveLogsToArchive tempFilePath tempDirFiles archiveDirFiles).1.filter
          (fun f => matchesRotatedGlob tempFilePath f) = [] ∧
      (moveLogsToArchive tempFilePath tempDirFiles archiveDirFiles).2 =
        archiveDirFiles ++
          tempDirFiles.filter (fun f => matchesRotatedGlob tempFilePath f)) ∧
    (∀ (rotateMinutes : ℤ) (s : ScaleState) (inp : TickInput)
        (inputs : List TickInput),
      inp.now > s.rotateTime →
      (∀ j ∈ inputs, j.now ≤ inp.now + rotateMinutes) →
      ∀ e ∈ runEvents rotateMinutes (tick rotateMinutes s inp).1 inputs,
        e.archived = false) := by
  refine ⟨fun a b c => rfl, fun rm s inp => rfl, ?_, ?_, ?_⟩
  · intro rm s inp
    rfl
  · intro p t a
    constructor
    · simp [moveLogsToArchive, List.filter_filter]
    · rfl
  · intro rm s inp inputs hfire hbound
    apply runEvents_no_archive
    intro j hj
    have hrot : (tick rm s inp).1.rotateTime = inp.now + rm := by
      simp [tick, hfire]
    rw [hrot]
    exact hbound j hj

/-- C9 witness: with interval 10, a state whose deadline is 5 fires at time
6, and the following tick at time 16 (within the new deadline 6 + 10) does
not fire. -/
theorem c9_maintenance_schedule_witness :
    (tick 10 (tick 10 ⟨0, 0, 5⟩ ⟨0, 6⟩).1 ⟨0, 16⟩).2.archived = false := by
  refine c9_maintenance_schedule.2.2.2.2 10 ⟨0, 0, 5⟩ ⟨0, 6⟩ [⟨0, 16⟩]
    (by decide) ?_ (tick 10 (tick 10 ⟨0, 0, 5⟩ ⟨0, 6⟩).1 ⟨0, 16⟩).2
    (by simp [runEvents])
  intro j hj
  rw [List.mem_singleton] at hj
  subst hj
  decide

/-- C10: after any number of ticks from the seeded initial state, the held
current weight is verbatim either the initial seed sample or one of the
samples supplied to some tick — never a combination of samples. -/
theorem c10_no_smoothing :
    ∀ (firstSample now0 rotateMinutes : ℤ) (inputs : List TickInput),
      (run rotateMinutes (initState firstSample now0 rotateMinutes)
          inputs).currentWeight = firstSample ∨
      (run rotateMinutes (initState firstSample now0 rotateMinutes)
          inputs).currentWeight ∈ inputs.map TickInput.sample :=
  fun firstSample now0 rotateMinutes inputs =>
    run_currentWeight_mem rotateMinutes inputs (initState firstSample now0 rotateMinutes)

end CoffeeScale
